import Mathlib

/-!
Verification of the foreign-callback glue layer of the gosqlite binding
(files `function.c`, `trace.c`, `hook.c`, `config.c`) against its
natural-language specification.

The C sources under scrutiny are thin trampolines between a managed
runtime and the native SQLite engine.  The engine itself and the
managed-side hook bodies (`goXFunc`, `goXAuth`, ...) are outside the
given sources, so they are modelled here from the specification's
description of their contracts; every definition taken from a C source
file names that file in its doc comment.
-/

/-- A C pointer-sized value; `0` is the C `NULL` pointer. -/
abbrev Ptr := Nat

/-- The C `NULL` pointer. -/
def nullPtr : Ptr := 0

/-- The fixed native-callable functions that the glue layer hands to the
engine as callback slots.  `noCb` stands for a null function pointer. -/
inductive NativeCallback where
  | noCb
  | xCommitHook
  | xRollbackHook
  | xUpdateHook
  | xTrace
  | xProfile
  | xAuth
  | xBusy
  | xProgress
  | xLog
  | cFunc
  | cStep
  | cFinal
  | goXDestroyCb
  deriving DecidableEq, Repr

/-- One engine-side callback slot: the registered native function and the
opaque user-data pointer stored with it. -/
structure HookSlot where
  cb : NativeCallback
  udp : Ptr
  deriving DecidableEq, Repr

/-- The empty slot (no callback registered). -/
def HookSlot.empty : HookSlot := ⟨.noCb, nullPtr⟩

/-- Modelled from the spec: the per-connection callback slots of the
native engine (`sqlite3`) that the given trampoline files touch.  The
engine stores one slot per hook kind on each connection — the
single-slot-per-hook semantics the spec cites. -/
structure Sqlite3 where
  commitHook : HookSlot
  rollbackHook : HookSlot
  updateHook : HookSlot
  traceHook : HookSlot
  profileHook : HookSlot
  authorizer : HookSlot
  busyHandler : HookSlot
  progressHandler : HookSlot
  progressNumOps : Nat
  deriving DecidableEq, Repr

/-- Modelled from the spec: `sqlite3_commit_hook` overwrites the commit
slot and returns the user data of the previously registered hook (the
engine's documented return value). -/
def sqlite3_commit_hook (db : Sqlite3) (cb : NativeCallback) (udp : Ptr) :
    Sqlite3 × Ptr :=
  ({ db with commitHook := ⟨cb, udp⟩ }, db.commitHook.udp)

/-- Modelled from the spec: `sqlite3_rollback_hook` overwrites the
rollback slot and returns the previous user data. -/
def sqlite3_rollback_hook (db : Sqlite3) (cb : NativeCallback) (udp : Ptr) :
    Sqlite3 × Ptr :=
  ({ db with rollbackHook := ⟨cb, udp⟩ }, db.rollbackHook.udp)

/-- Modelled from the spec: `sqlite3_update_hook` overwrites the update
slot and returns the previous user data. -/
def sqlite3_update_hook (db : Sqlite3) (cb : NativeCallback) (udp : Ptr) :
    Sqlite3 × Ptr :=
  ({ db with updateHook := ⟨cb, udp⟩ }, db.updateHook.udp)

/-- Modelled from the spec: `sqlite3_trace` overwrites the trace slot and
returns the previous user data. -/
def sqlite3_trace (db : Sqlite3) (cb : NativeCallback) (udp : Ptr) :
    Sqlite3 × Ptr :=
  ({ db with traceHook := ⟨cb, udp⟩ }, db.traceHook.udp)

/-- Modelled from the spec: `sqlite3_profile` overwrites the profile slot
and returns the previous user data. -/
def sqlite3_profile (db : Sqlite3) (cb : NativeCallback) (udp : Ptr) :
    Sqlite3 × Ptr :=
  ({ db with profileHook := ⟨cb, udp⟩ }, db.profileHook.udp)

/-- Modelled from the spec: `sqlite3_set_authorizer` overwrites the
authorizer slot and returns an engine result code. -/
def sqlite3_set_authorizer (db : Sqlite3) (cb : NativeCallback) (udp : Ptr) :
    Sqlite3 × Int :=
  ({ db with authorizer := ⟨cb, udp⟩ }, 0)

/-- Modelled from the spec: `sqlite3_busy_handler` overwrites the
busy-handler slot and returns an engine result code. -/
def sqlite3_busy_handler (db : Sqlite3) (cb : NativeCallback) (udp : Ptr) :
    Sqlite3 × Int :=
  ({ db with busyHandler := ⟨cb, udp⟩ }, 0)

/-- Modelled from the spec: `sqlite3_progress_handler` overwrites the
progress slot (with its instruction period) and returns nothing. -/
def sqlite3_progress_handler (db : Sqlite3) (numOps : Nat)
    (cb : NativeCallback) (udp : Ptr) : Sqlite3 :=
  { db with progressHandler := ⟨cb, udp⟩, progressNumOps := numOps }

/-- From `hook.c`: `goSqlite3CommitHook` registers the fixed trampoline
`goXCommitHook` with the given user data and returns the previous
registration's user data to the caller. -/
def goSqlite3CommitHook (db : Sqlite3) (udp : Ptr) : Sqlite3 × Ptr :=
  sqlite3_commit_hook db .xCommitHook udp

/-- From `hook.c`: `goSqlite3RollbackHook` registers `goXRollbackHook`
and returns the previous registration's user data. -/
def goSqlite3RollbackHook (db : Sqlite3) (udp : Ptr) : Sqlite3 × Ptr :=
  sqlite3_rollback_hook db .xRollbackHook udp

/-- From `hook.c`: `goSqlite3UpdateHook` registers `goXUpdateHook` and
returns the previous registration's user data. -/
def goSqlite3UpdateHook (db : Sqlite3) (udp : Ptr) : Sqlite3 × Ptr :=
  sqlite3_update_hook db .xUpdateHook udp

/-- From `trace.c`: `goSqlite3Trace` registers `goXTrace`.  The C wrapper
has return type `void`, so the previous registration's user data (which
`sqlite3_trace` returns) is discarded. -/
def goSqlite3Trace (db : Sqlite3) (udp : Ptr) : Sqlite3 :=
  (sqlite3_trace db .xTrace udp).1

/-- From `trace.c`: `goSqlite3Profile` registers `goXProfile`, return
type `void`, previous user data discarded. -/
def goSqlite3Profile (db : Sqlite3) (udp : Ptr) : Sqlite3 :=
  (sqlite3_profile db .xProfile udp).1

/-- From `trace.c`: `goSqlite3SetAuthorizer` registers `goXAuth` and
returns the engine's result code. -/
def goSqlite3SetAuthorizer (db : Sqlite3) (udp : Ptr) : Sqlite3 × Int :=
  sqlite3_set_authorizer db .xAuth udp

/-- From `trace.c`: `goSqlite3BusyHandler` registers `goXBusy` and
returns the engine's result code. -/
def goSqlite3BusyHandler (db : Sqlite3) (udp : Ptr) : Sqlite3 × Int :=
  sqlite3_busy_handler db .xBusy udp

/-- From `trace.c`: `goSqlite3ProgressHandler` registers `goXProgress`
with the given instruction period; return type `void`. -/
def goSqlite3ProgressHandler (db : Sqlite3) (numOps : Nat) (udp : Ptr) :
    Sqlite3 :=
  sqlite3_progress_handler db numOps .xProgress udp

/-- The hook kinds whose registration wrappers appear in `hook.c` and
`trace.c`. -/
inductive GoHookKind where
  | commit
  | rollback
  | update
  | trace
  | profile
  | authorizer
  | busy
  | progress
  deriving DecidableEq, Repr

/-- Registration through the glue layer, dispatched by hook kind: each
branch is the corresponding wrapper from `hook.c` / `trace.c` (with its
non-state results dropped, since only the stored slot matters here). -/
def registerHook (k : GoHookKind) (db : Sqlite3) (udp : Ptr) : Sqlite3 :=
  match k with
  | .commit => (goSqlite3CommitHook db udp).1
  | .rollback => (goSqlite3RollbackHook db udp).1
  | .update => (goSqlite3UpdateHook db udp).1
  | .trace => goSqlite3Trace db udp
  | .profile => goSqlite3Profile db udp
  | .authorizer => (goSqlite3SetAuthorizer db udp).1
  | .busy => (goSqlite3BusyHandler db udp).1
  | .progress => goSqlite3ProgressHandler db 100 udp

/-- The slot the engine consults when it fires a hook of the given kind. -/
def hookSlot (k : GoHookKind) (db : Sqlite3) : HookSlot :=
  match k with
  | .commit => db.commitHook
  | .rollback => db.rollbackHook
  | .update => db.updateHook
  | .trace => db.traceHook
  | .profile => db.profileHook
  | .authorizer => db.authorizer
  | .busy => db.busyHandler
  | .progress => db.progressHandler

/-- Modelled from the spec: when the engine fires a hook it invokes the
stored callback, passing back the stored user data unmodified; the
delivered user-data argument is therefore exactly the slot's `udp`
(`none` when no callback is registered). -/
def deliveredUdp (k : GoHookKind) (db : Sqlite3) : Option Ptr :=
  if (hookSlot k db).cb = .noCb then none else some (hookSlot k db).udp

/-- Modelled from the spec: the managed-side trampoline bodies
(`goXCommitHook`, `goXTrace`, ... — Go code absent from the given
sources) hand the user-data argument they receive to the managed closure
unchanged; the closure's argument is the trampoline's argument. -/
def trampolineClosureArg (udp : Ptr) : Ptr := udp

/-! ### Engine result codes used by the glue layer -/

/-- `SQLITE_OK`. -/
def SQLITE_OK : Int := 0

/-- `SQLITE_DENY`, the authorizer's failure code. -/
def SQLITE_DENY : Int := 1

/-- `SQLITE_MISUSE`, returned by the engine on API misuse. -/
def SQLITE_MISUSE : Int := 21

/-! ### Outcome of invoking a managed closure -/

/-- The outcome of invoking a managed closure: either a normal result or
an abnormal termination (e.g. a thrown error / panic) carrying a
diagnostic message. -/
inductive Outcome (α : Type) where
  | ok (val : α)
  | abnormal (msg : String)
  deriving DecidableEq, Repr

/-! ### Scalar / aggregate function dispatch (`function.c`) -/

/-- A native SQLite value handle, as seen through the engine's typed
value accessors. -/
inductive SqliteValue where
  | intVal (i : Int)
  | textVal (s : String)
  | nullVal
  deriving DecidableEq, Repr

/-- Modelled from the spec: the per-call `sqlite3_context` of a
user-defined function — the user data installed at registration, the
auxiliary data slots, and the result cell written through the engine's
value setters (`none` until a setter runs; `error` set by
`sqlite3_result_error`). -/
structure SqliteContext where
  userData : Ptr
  auxData : Nat → Ptr
  result : Option SqliteValue
  errorMsg : Option String

/-- Modelled from the spec: `sqlite3_user_data` reads the user data
installed with the function registration. -/
def sqlite3_user_data (ctx : SqliteContext) : Ptr := ctx.userData

/-- Modelled from the spec: `sqlite3_get_auxdata` reads auxiliary data
slot `n` of the call context. -/
def sqlite3_get_auxdata (ctx : SqliteContext) (n : Nat) : Ptr := ctx.auxData n

/-- Modelled from the spec: the engine-provided value setter
(`sqlite3_result_*`) writes the function's result into the context. -/
def sqlite3_result_value (ctx : SqliteContext) (v : SqliteValue) :
    SqliteContext :=
  { ctx with result := some v }

/-- Modelled from the spec: `sqlite3_result_error` marks the function
call as failed with an error message — the native failure convention for
user-defined functions. -/
def sqlite3_result_error (ctx : SqliteContext) (msg : String) :
    SqliteContext :=
  { ctx with errorMsg := some msg }

/-- Modelled from the spec: the Go-side `goXFunc` body (absent from the
given sources) invokes the managed scalar closure on the argument count
and argument values it received, writes a normal result back through the
engine's value setter unchanged, and converts an abnormal termination
into `sqlite3_result_error` — the function's native failure code path. -/
def goXFunc (closure : Ptr → Ptr → Nat → List SqliteValue → Outcome SqliteValue)
    (ctx : SqliteContext) (udf goctx : Ptr) (argc : Nat)
    (argv : List SqliteValue) : SqliteContext :=
  match closure udf goctx argc argv with
  | .ok v => sqlite3_result_value ctx v
  | .abnormal msg => sqlite3_result_error ctx msg

/-- Modelled from the spec: the Go-side `goXStep` body invokes the
managed aggregate-step closure, converting abnormal termination into
`sqlite3_result_error`. -/
def goXStep (closure : Ptr → Nat → List SqliteValue → Outcome Unit)
    (ctx : SqliteContext) (udf : Ptr) (argc : Nat)
    (argv : List SqliteValue) : SqliteContext :=
  match closure udf argc argv with
  | .ok _ => ctx
  | .abnormal msg => sqlite3_result_error ctx msg

/-- Modelled from the spec: the Go-side `goXFinal` body invokes the
managed aggregate-final closure, writing its result via the value setter
and converting abnormal termination into `sqlite3_result_error`. -/
def goXFinal (closure : Ptr → Outcome SqliteValue) (ctx : SqliteContext)
    (udf : Ptr) : SqliteContext :=
  match closure udf with
  | .ok v => sqlite3_result_value ctx v
  | .abnormal msg => sqlite3_result_error ctx msg

/-- From `function.c`: the scalar trampoline `cXFunc` reads the user data
and auxiliary-data slot 0 from the context and forwards the context, both
pointers, the argument count and the argument vector to `goXFunc`
unchanged. -/
def cXFunc (closure : Ptr → Ptr → Nat → List SqliteValue → Outcome SqliteValue)
    (ctx : SqliteContext) (argc : Nat) (argv : List SqliteValue) :
    SqliteContext :=
  goXFunc closure ctx (sqlite3_user_data ctx) (sqlite3_get_auxdata ctx 0)
    argc argv

/-- From `function.c`: the aggregate-step trampoline `cXStep` reads the
user data from the context and forwards everything to `goXStep`. -/
def cXStep (closure : Ptr → Nat → List SqliteValue → Outcome Unit)
    (ctx : SqliteContext) (argc : Nat) (argv : List SqliteValue) :
    SqliteContext :=
  goXStep closure ctx (sqlite3_user_data ctx) argc argv

/-- From `function.c`: the aggregate-final trampoline `cXFinal` reads the
user data from the context and forwards it to `goXFinal`. -/
def cXFinal (closure : Ptr → Outcome SqliteValue) (ctx : SqliteContext) :
    SqliteContext :=
  goXFinal closure ctx (sqlite3_user_data ctx)

/-! ### Modelled Go-side trampoline bodies for the hook kinds of
`trace.c` / `hook.c` -/

/-- Modelled from the spec: the Go-side `goXAuth` body invokes the
managed authorizer closure with the user-data token and the action code;
an abnormal termination is caught at the boundary and converted to the
authorizer's native failure code `SQLITE_DENY`. -/
def goXAuth (closure : Ptr → Int → Outcome Int) (udp : Ptr) (action : Int) :
    Int :=
  match closure udp action with
  | .ok rc => rc
  | .abnormal _ => SQLITE_DENY

/-- Modelled from the spec: the Go-side `goXBusy` body invokes the
managed busy-handler closure; an abnormal termination is converted to
`0`, the busy handler's native failure code (stop retrying). -/
def goXBusy (closure : Ptr → Int → Outcome Int) (udp : Ptr) (count : Int) :
    Int :=
  match closure udp count with
  | .ok rc => rc
  | .abnormal _ => 0

/-- Modelled from the spec: the Go-side `goXProgress` body invokes the
managed progress closure; an abnormal termination is converted to `1`,
the progress handler's native failure code (interrupt the operation). -/
def goXProgress (closure : Ptr → Outcome Int) (udp : Ptr) : Int :=
  match closure udp with
  | .ok rc => rc
  | .abnormal _ => 1

/-- Modelled from the spec: the Go-side `goXCommitHook` body invokes the
managed commit closure with the user-data token it received, unmodified. -/
def goXCommitHook (closure : Ptr → Int) (udp : Ptr) : Int :=
  closure udp

/-- Modelled from the spec: the Go-side `goXTrace` body (a void-returning
notification hook) invokes the managed trace closure; an abnormal
termination is swallowed after being reported through a side channel,
and nothing crosses the boundary. -/
def goXTrace (closure : Ptr → String → Outcome Unit) (udp : Ptr)
    (sql : String) : Unit :=
  match closure udp sql with
  | .ok _ => ()
  | .abnormal _ => ()

/-- Modelled from the spec: the Go-side `goXUpdateHook` body
(void-returning) invokes the managed update closure; abnormal
termination is swallowed. -/
def goXUpdateHook (closure : Ptr → Int → String → String → Int → Outcome Unit)
    (udp : Ptr) (action : Int) (dbName tableName : String) (rowID : Int) :
    Unit :=
  match closure udp action dbName tableName rowID with
  | .ok _ => ()
  | .abnormal _ => ()

/-- Modelled from the spec: the Go-side `goXRollbackHook` body
(void-returning) invokes the managed rollback closure; abnormal
termination is swallowed. -/
def goXRollbackHook (closure : Ptr → Outcome Unit) (udp : Ptr) : Unit :=
  match closure udp with
  | .ok _ => ()
  | .abnormal _ => ()

/-! ### User-defined function registration (`function.c`) -/

/-- A registered user-defined function in the engine: the application
pointer (`pApp`), the installed callbacks, and the destructor. -/
structure FuncSlot where
  pApp : Ptr
  nArg : Int
  eTextRep : Int
  xFunc : NativeCallback
  xStep : NativeCallback
  xFinal : NativeCallback
  xDestroy : NativeCallback
  deriving DecidableEq, Repr

/-- Modelled from the spec: the function-registration state of one engine
connection — one slot per function name (the engine's single-slot
semantics), a log of the `pApp` values passed to destructor callbacks
(most recent first), and whether the connection is still open. -/
structure FuncDb where
  isOpen : Bool
  funcs : String → Option FuncSlot
  destroyLog : List Ptr

/-- Modelled from the spec: `sqlite3_create_function_v2` on a closed
connection fails with `SQLITE_MISUSE` and changes nothing; otherwise it
installs the new slot for the name, and if a prior registration existed
for that name the engine fires that registration's destructor callback
exactly once with its `pApp` (when it had a destructor). -/
def sqlite3_create_function_v2 (db : FuncDb) (zFunctionName : String)
    (nArg : Int) (eTextRep : Int) (pApp : Ptr)
    (xF xS xFin xDestroy : NativeCallback) : FuncDb × Int :=
  if db.isOpen then
    let slot : FuncSlot := ⟨pApp, nArg, eTextRep, xF, xS, xFin, xDestroy⟩
    let newFuncs : String → Option FuncSlot :=
      fun n => if n = zFunctionName then some slot else db.funcs n
    match db.funcs zFunctionName with
    | some old =>
        if old.xDestroy = .noCb then
          ({ db with funcs := newFuncs }, SQLITE_OK)
        else
          ({ db with funcs := newFuncs,
                     destroyLog := old.pApp :: db.destroyLog }, SQLITE_OK)
    | none => ({ db with funcs := newFuncs }, SQLITE_OK)
  else (db, SQLITE_MISUSE)

/-- From `function.c`: `goSqlite3CreateScalarFunction` registers `cXFunc`
as the scalar callback (no step/final) with `goXDestroy` as destructor,
forwarding name, arity, text encoding and `pApp` to the engine, and
returns the engine's result code. -/
def goSqlite3CreateScalarFunction (db : FuncDb) (zFunctionName : String)
    (nArg : Int) (eTextRep : Int) (pApp : Ptr) : FuncDb × Int :=
  sqlite3_create_function_v2 db zFunctionName nArg eTextRep pApp
    .cFunc .noCb .noCb .goXDestroyCb

/-- From `function.c`: `goSqlite3CreateAggregateFunction` registers
`cXStep` and `cXFinal` (no scalar callback) with `goXDestroy` as
destructor and returns the engine's result code. -/
def goSqlite3CreateAggregateFunction (db : FuncDb) (zFunctionName : String)
    (nArg : Int) (eTextRep : Int) (pApp : Ptr) : FuncDb × Int :=
  sqlite3_create_function_v2 db zFunctionName nArg eTextRep pApp
    .noCb .cStep .cFinal .goXDestroyCb

/-- Registration of either user-defined-function kind of `function.c`,
selected by a flag. -/
def createGoFunction (agg : Bool) (db : FuncDb) (zFunctionName : String)
    (nArg : Int) (eTextRep : Int) (pApp : Ptr) : FuncDb × Int :=
  if agg then goSqlite3CreateAggregateFunction db zFunctionName nArg eTextRep pApp
  else goSqlite3CreateScalarFunction db zFunctionName nArg eTextRep pApp

/-! ### Process-wide logging configuration (`trace.c`, `config.c`) -/

/-- Modelled from the spec: the engine's process-wide configuration state
— the log sink (callback and user data) and whether the library has
already been initialized (after which `sqlite3_config` is refused). -/
structure GlobalConfig where
  logCb : NativeCallback
  logUdp : Ptr
  initialized : Bool
  deriving DecidableEq, Repr

/-- Modelled from the spec: `sqlite3_config(SQLITE_CONFIG_LOG, cb, udp)`
stores the log callback and its user data and returns `SQLITE_OK`, or
returns `SQLITE_MISUSE` without change once the library is initialized. -/
def sqlite3_config_log (g : GlobalConfig) (cb : NativeCallback) (udp : Ptr) :
    GlobalConfig × Int :=
  if g.initialized then (g, SQLITE_MISUSE)
  else ({ g with logCb := cb, logUdp := udp }, SQLITE_OK)

/-- From `trace.c`: `goSqlite3ConfigLog` with a non-null user-data token
registers the fixed trampoline `goXLog` with that token; with a null
token it passes null for both the callback and the user data,
unregistering the sink.  Either way the engine's configuration return
code is returned to the caller. -/
def goSqlite3ConfigLog (g : GlobalConfig) (udp : Ptr) : GlobalConfig × Int :=
  if udp ≠ nullPtr then sqlite3_config_log g .xLog udp
  else sqlite3_config_log g .noCb nullPtr

/-! ### The callback registry (spec section 4.1) -/

/-- The extension-point kinds of the registry (spec section 3). -/
inductive ExtPointKind where
  | scalarFunc
  | aggStep
  | aggFinal
  | commitHookK
  | rollbackHookK
  | updateHookK
  | traceK
  | profileK
  | authorizerK
  | busyHandlerK
  | progressHandlerK
  | logSink
  deriving DecidableEq, Repr

instance : BEq ExtPointKind := ⟨fun a b => decide (a = b)⟩

/-- One live registration of the registry: its token, the owning
connection handle, the extension-point kind, and the managed closure
(identified by an opaque id). -/
structure RegEntry where
  token : Nat
  conn : Nat
  kind : ExtPointKind
  closure : Nat
  deriving DecidableEq, Repr

/-- Modelled from the spec: the Callback Registry — a fresh-token
counter, the live token-to-closure entries, and the log of tokens whose
closures' captured resources have been released (most recent first). -/
structure Registry where
  nextToken : Nat
  entries : List RegEntry
  releaseLog : List Nat
  deriving DecidableEq, Repr

/-- The registry's error taxonomy (spec section 7). -/
inductive RegError where
  | alreadyClosed
  | danglingToken
  deriving DecidableEq, Repr

/-- Whether an entry belongs to the given (connection, kind) slot. -/
def RegEntry.isSlot (e : RegEntry) (conn : Nat) (kind : ExtPointKind) : Bool :=
  e.conn == conn && e.kind == kind

/-- Modelled from the spec: `register(connection, kind, closure)` fails
with `AlreadyClosedError` if the connection handle is no longer valid
(not among the open connections); otherwise it mints a fresh token,
stores the closure, invalidates and releases any prior closure for the
same (connection, kind), and returns the token. -/
def Registry.register (r : Registry) (openConns : List Nat) (conn : Nat)
    (kind : ExtPointKind) (c : Nat) : Except RegError (Registry × Nat) :=
  if conn ∈ openConns then
    let prior := r.entries.filter (fun e => e.isSlot conn kind)
    let kept := r.entries.filter (fun e => !e.isSlot conn kind)
    .ok ({ nextToken := r.nextToken + 1,
           entries := ⟨r.nextToken, conn, kind, c⟩ :: kept,
           releaseLog := prior.map (·.token) ++ r.releaseLog },
         r.nextToken)
  else .error .alreadyClosed

/-- Modelled from the spec: `resolve(Token)` returns the closure of the
live entry holding the token, and fails with `DanglingTokenError` when no
live entry holds it (the token was already released). -/
def Registry.resolve (r : Registry) (t : Nat) : Except RegError Nat :=
  match r.entries.find? (fun e => e.token == t) with
  | some e => .ok e.closure
  | none => .error .danglingToken

/-- Modelled from the spec: `release(Token)`, the native destructor
callback path — removes the token's entry and logs the release of its
closure's captured resources.  A release of a token with no live entry is
the fatal double-release violation and changes nothing here. -/
def Registry.release (r : Registry) (t : Nat) : Registry :=
  if r.entries.any (fun e => e.token == t) then
    { r with entries := r.entries.filter (fun e => e.token != t),
             releaseLog := t :: r.releaseLog }
  else r

/-- Modelled from the spec: closing a connection makes the engine fire
the destructor callback of every registration owned by it; the registry
releases each of those closures. -/
def Registry.closeConn (r : Registry) (conn : Nat) : Registry :=
  { r with entries := r.entries.filter (fun e => e.conn != conn),
           releaseLog :=
             (r.entries.filter (fun e => e.conn == conn)).map (·.token)
               ++ r.releaseLog }

/-- An abstract registry operation, for reasoning over arbitrary
register / release / close sequences. -/
inductive RegOp where
  | doRegister (conn : Nat) (kind : ExtPointKind) (c : Nat)
  | doRelease (t : Nat)
  | doClose (conn : Nat)
  deriving DecidableEq, Repr

/-- Run one operation (the result value, if any, is dropped; a failed
register leaves the registry unchanged). -/
def Registry.runOp (openConns : List Nat) (r : Registry) : RegOp → Registry
  | .doRegister conn kind c =>
      match r.register openConns conn kind c with
      | .ok (r', _) => r'
      | .error _ => r
  | .doRelease t => r.release t
  | .doClose conn => r.closeConn conn

/-- Run a sequence of operations left to right. -/
def Registry.run (openConns : List Nat) (r : Registry) (ops : List RegOp) :
    Registry :=
  ops.foldl (Registry.runOp openConns) r

/-- Well-formedness of a registry: live tokens and released tokens are
all below the fresh-token counter, no released token is live, and a live
token identifies its entry uniquely. -/
def Registry.Wf (r : Registry) : Prop :=
  (∀ e ∈ r.entries, e.token < r.nextToken) ∧
  (∀ t ∈ r.releaseLog, t < r.nextToken) ∧
  (∀ t ∈ r.releaseLog, ∀ e ∈ r.entries, e.token ≠ t) ∧
  (∀ e ∈ r.entries, ∀ e2 ∈ r.entries, e.token = e2.token → e = e2)

instance (r : Registry) : Decidable r.Wf := by
  unfold Registry.Wf
  infer_instance

/-- The empty registry. -/
def Registry.init : Registry := ⟨0, [], []⟩

/-! ### Registry lemmas -/

theorem registry_releaseLog_mono (openConns : List Nat) (r : Registry)
    (op : RegOp) (t : Nat) (h : t ∈ r.releaseLog) :
    t ∈ (r.runOp openConns op).releaseLog := by
  cases op with
  | doRegister conn kind c =>
      by_cases hc : conn ∈ openConns
      · simp only [Registry.runOp, Registry.register, if_pos hc]
        exact List.mem_append_right _ h
      · simp only [Registry.runOp, Registry.register, if_neg hc]
        exact h
  | doRelease tok =>
      by_cases ha : r.entries.any (fun e => e.token == tok)
      · simp only [Registry.runOp, Registry.release, if_pos ha]
        exact List.mem_cons_of_mem _ h
      · simp only [Registry.runOp, Registry.release, if_neg ha]
        exact h
  | doClose conn =>
      simp only [Registry.runOp, Registry.closeConn]
      exact List.mem_append_right _ h

theorem registry_wf_runOp (openConns : List Nat) (r : Registry) (op : RegOp)
    (hwf : r.Wf) : (r.runOp openConns op).Wf := by
  obtain ⟨h1, h2, h3, h4⟩ := hwf
  cases op with
  | doRegister conn kind c =>
      by_cases hc : conn ∈ openConns
      · simp only [Registry.runOp, Registry.register, if_pos hc]
        refine ⟨?_, ?_, ?_, ?_⟩
        · intro e he
          rcases List.mem_cons.1 he with rfl | he'
          · exact Nat.lt_succ_self _
          · exact Nat.lt_succ_of_lt (h1 e (List.mem_filter.1 he').1)
        · intro t ht
          rcases List.mem_append.1 ht with ht' | ht'
          · obtain ⟨p, hp, rfl⟩ := List.mem_map.1 ht'
            exact Nat.lt_succ_of_lt (h1 p (List.mem_filter.1 hp).1)
          · exact Nat.lt_succ_of_lt (h2 t ht')
        · intro t ht e he
          rcases List.mem_cons.1 he with rfl | he'
          · show r.nextToken ≠ t
            rcases List.mem_append.1 ht with ht' | ht'
            · obtain ⟨p, hp, rfl⟩ := List.mem_map.1 ht'
              exact Nat.ne_of_gt (h1 p (List.mem_filter.1 hp).1)
            · exact Nat.ne_of_gt (h2 t ht')
          · have heE := (List.mem_filter.1 he').1
            have heS := (List.mem_filter.1 he').2
            rcases List.mem_append.1 ht with ht' | ht'
            · obtain ⟨p, hp, rfl⟩ := List.mem_map.1 ht'
              have hpE := (List.mem_filter.1 hp).1
              have hpS := (List.mem_filter.1 hp).2
              intro htok
              have hep : e = p := h4 e heE p hpE htok
              subst hep
              have hs1 : RegEntry.isSlot e conn kind = true := hpS
              have hs2 : (!RegEntry.isSlot e conn kind) = true := heS
              rw [hs1] at hs2
              exact absurd hs2 (by decide)
            · exact h3 t ht' e heE
        · intro e he e2 he2 htok
          rcases List.mem_cons.1 he with rfl | he'
          · rcases List.mem_cons.1 he2 with rfl | he2'
            · rfl
            · have hlt := h1 e2 (List.mem_filter.1 he2').1
              have heq : r.nextToken = e2.token := htok
              omega
          · rcases List.mem_cons.1 he2 with rfl | he2'
            · have hlt := h1 e (List.mem_filter.1 he').1
              have heq : e.token = r.nextToken := htok
              omega
            · exact h4 e (List.mem_filter.1 he').1 e2
                (List.mem_filter.1 he2').1 htok
      · simp only [Registry.runOp, Registry.register, if_neg hc]
        exact ⟨h1, h2, h3, h4⟩
  | doRelease tok =>
      by_cases ha : r.entries.any (fun e => e.token == tok)
      · obtain ⟨p, hp, hptok⟩ := List.any_eq_true.1 ha
        simp only [Registry.runOp, Registry.release, if_pos ha]
        refine ⟨?_, ?_, ?_, ?_⟩
        · intro e he
          exact h1 e (List.mem_filter.1 he).1
        · intro t ht
          rcases List.mem_cons.1 ht with rfl | ht'
          · have hlt := h1 p hp
            have heq : p.token = t := by simpa using hptok
            show t < r.nextToken
            omega
          · exact h2 t ht'
        · intro t ht e he
          have heE := (List.mem_filter.1 he).1
          have heS := (List.mem_filter.1 he).2
          rcases List.mem_cons.1 ht with rfl | ht'
          · simpa using heS
          · exact h3 t ht' e heE
        · intro e he e2 he2 htok
          exact h4 e (List.mem_filter.1 he).1 e2 (List.mem_filter.1 he2).1 htok
      · simp only [Registry.runOp, Registry.release, if_neg ha]
        exact ⟨h1, h2, h3, h4⟩
  | doClose conn =>
      simp only [Registry.runOp, Registry.closeConn]
      refine ⟨?_, ?_, ?_, ?_⟩
      · intro e he
        exact h1 e (List.mem_filter.1 he).1
      · intro t ht
        rcases List.mem_append.1 ht with ht' | ht'
        · obtain ⟨p, hp, rfl⟩ := List.mem_map.1 ht'
          exact h1 p (List.mem_filter.1 hp).1
        · exact h2 t ht'
      · intro t ht e he
        have heE := (List.mem_filter.1 he).1
        have heS := (List.mem_filter.1 he).2
        rcases List.mem_append.1 ht with ht' | ht'
        · obtain ⟨p, hp, rfl⟩ := List.mem_map.1 ht'
          have hpE := (List.mem_filter.1 hp).1
          have hpS := (List.mem_filter.1 hp).2
          intro htok
          have hep : e = p := h4 e heE p hpE htok
          subst hep
          have hcc : e.conn = conn := by simpa using hpS
          have hcc2 : ¬e.conn = conn := by simpa using heS
          exact hcc2 hcc
        · exact h3 t ht' e heE
      · intro e he e2 he2 htok
        exact h4 e (List.mem_filter.1 he).1 e2 (List.mem_filter.1 he2).1 htok

theorem registry_resolve_of_released (r : Registry) (t : Nat) (hwf : r.Wf)
    (h : t ∈ r.releaseLog) : r.resolve t = .error .danglingToken := by
  obtain ⟨-, -, h3, -⟩ := hwf
  unfold Registry.resolve
  have hnone : r.entries.find? (fun e => e.token == t) = none := by
    rw [List.find?_eq_none]
    intro e he
    simpa using h3 t h e he
  rw [hnone]

theorem registry_wf_init : Registry.init.Wf := by
  decide

/-! ### Fine-grained interleaving model of the registry lock
(spec section 5) -/

/-- The state of one token's map entry in the fine-grained model: fully
live with its closure, or invalidated mid-release — a partially-released
entry. -/
inductive EntrySt where
  | live (closure : Nat)
  | invalidated
  deriving DecidableEq, Repr

/-- A micro-instruction of a registry operation on the shared state. -/
inductive MStep where
  | lockAcq
  | lockRel
  | insertE (t c : Nat)
  | invalidateE (t : Nat)
  | eraseE (t : Nat)
  | lookupE (t : Nat)
  deriving DecidableEq, Repr

/-- The registry operations that may run concurrently. -/
inductive COp where
  | cRegister (t c : Nat)
  | cRelease (t : Nat)
  | cResolve (t : Nat)
  deriving DecidableEq, Repr

/-- Modelled from the spec: each operation wraps its map accesses in the
short-held mutual-exclusion lock; release is two distinct memory steps
(invalidate the entry, then remove it), so without the lock a lookup
could observe the intermediate, partially-released state. -/
def progOf : COp → List MStep
  | .cRegister t c => [.lockAcq, .insertE t c, .lockRel]
  | .cRelease t => [.lockAcq, .invalidateE t, .eraseE t, .lockRel]
  | .cResolve t => [.lockAcq, .lookupE t, .lockRel]

/-- Insert a live entry for a token, displacing any old entry. -/
def mapInsert (m : List (Nat × EntrySt)) (t c : Nat) : List (Nat × EntrySt) :=
  (t, .live c) :: m.filter (fun p => p.1 != t)

/-- First phase of release: invalidate the token's entry in place. -/
def mapInvalidate (m : List (Nat × EntrySt)) (t : Nat) :
    List (Nat × EntrySt) :=
  m.map (fun p => if p.1 = t then (p.1, EntrySt.invalidated) else p)

/-- Second phase of release: remove the token's entry. -/
def mapErase (m : List (Nat × EntrySt)) (t : Nat) : List (Nat × EntrySt) :=
  m.filter (fun p => p.1 != t)

/-- What a lookup of the token sees in the shared map. -/
def mapLookup (m : List (Nat × EntrySt)) (t : Nat) : Option EntrySt :=
  (m.find? (fun p => p.1 == t)).map (·.2)

/-- A system state of the interleaving model: the lock owner (a thread
index), the shared token map, the threads — each running one registry
operation, with its remaining program — and the log of map views that
lookups have observed. -/
structure CSys where
  lock : Option Nat
  map : List (Nat × EntrySt)
  threads : List (COp × List MStep)
  observed : List (Nat × Option EntrySt)
  deriving DecidableEq, Repr

/-- One interleaving step: some thread executes its next
micro-instruction.  Acquiring the lock requires it to be free; the
memory instructions themselves are unguarded — mutual exclusion is a
property to be proved, not an assumption of the memory. -/
inductive CStep : CSys → CSys → Prop where
  | acq (s : CSys) (i : Nat) (op : COp) (rest : List MStep)
      (hi : s.threads[i]? = some (op, MStep.lockAcq :: rest))
      (hl : s.lock = none) :
      CStep s { s with lock := some i, threads := s.threads.set i (op, rest) }
  | rel (s : CSys) (i : Nat) (op : COp) (rest : List MStep)
      (hi : s.threads[i]? = some (op, MStep.lockRel :: rest)) :
      CStep s { s with lock := none, threads := s.threads.set i (op, rest) }
  | ins (s : CSys) (i : Nat) (op : COp) (rest : List MStep) (t c : Nat)
      (hi : s.threads[i]? = some (op, MStep.insertE t c :: rest)) :
      CStep s { s with map := mapInsert s.map t c,
                       threads := s.threads.set i (op, rest) }
  | inval (s : CSys) (i : Nat) (op : COp) (rest : List MStep) (t : Nat)
      (hi : s.threads[i]? = some (op, MStep.invalidateE t :: rest)) :
      CStep s { s with map := mapInvalidate s.map t,
                       threads := s.threads.set i (op, rest) }
  | erase (s : CSys) (i : Nat) (op : COp) (rest : List MStep) (t : Nat)
      (hi : s.threads[i]? = some (op, MStep.eraseE t :: rest)) :
      CStep s { s with map := mapErase s.map t,
                       threads := s.threads.set i (op, rest) }
  | lookup (s : CSys) (i : Nat) (op : COp) (rest : List MStep) (t : Nat)
      (hi : s.threads[i]? = some (op, MStep.lookupE t :: rest)) :
      CStep s { s with observed := (t, mapLookup s.map t) :: s.observed,
                       threads := s.threads.set i (op, rest) }

/-- An initial state: lock free, nothing observed yet, no
partially-released entry, every thread at the start of its operation's
program. -/
def CInitial (s : CSys) : Prop :=
  s.lock = none ∧ s.observed = [] ∧
  (∀ p ∈ s.map, p.2 ≠ EntrySt.invalidated) ∧
  (∀ p ∈ s.threads, p.2 = progOf p.1)

instance (s : CSys) : Decidable (CInitial s) := by
  unfold CInitial
  infer_instance

/-- The inductive invariant: programs only shrink from the front; a
thread strictly inside its program holds the lock; every
partially-released entry belongs to a thread just about to erase it; and
no lookup has ever observed a partially-released entry. -/
structure CInv (s : CSys) : Prop where
  progSuffix : ∀ (i : Nat) (op : COp) (rest : List MStep),
    s.threads[i]? = some (op, rest) → rest <:+ progOf op
  locked : ∀ (i : Nat) (op : COp) (rest : List MStep),
    s.threads[i]? = some (op, rest) →
    rest ≠ progOf op → rest ≠ [] → s.lock = some i
  halfReleased : ∀ (t : Nat) (st : EntrySt), (t, st) ∈ s.map →
    st = EntrySt.invalidated →
    ∃ (i : Nat) (op : COp),
      s.threads[i]? = some (op, [MStep.eraseE t, MStep.lockRel])
  obsClean : ∀ p ∈ s.observed, p.2 ≠ some EntrySt.invalidated

/-! ### Program-shape lemmas for the interleaving model -/

theorem suffix_three {α : Type} {l : List α} {a b c : α}
    (h : l <:+ [a, b, c]) : l = [a, b, c] ∨ l = [b, c] ∨ l = [c] ∨ l = [] := by
  rcases List.suffix_cons_iff.1 h with h1 | h1
  · exact Or.inl h1
  rcases List.suffix_cons_iff.1 h1 with h2 | h2
  · exact Or.inr (Or.inl h2)
  rcases List.suffix_cons_iff.1 h2 with h3 | h3
  · exact Or.inr (Or.inr (Or.inl h3))
  · exact Or.inr (Or.inr (Or.inr (List.suffix_nil.1 h3)))

theorem suffix_four {α : Type} {l : List α} {a b c d : α}
    (h : l <:+ [a, b, c, d]) :
    l = [a, b, c, d] ∨ l = [b, c, d] ∨ l = [c, d] ∨ l = [d] ∨ l = [] := by
  rcases List.suffix_cons_iff.1 h with h1 | h1
  · exact Or.inl h1
  rcases suffix_three h1 with h2 | h2 | h2 | h2
  · exact Or.inr (Or.inl h2)
  · exact Or.inr (Or.inr (Or.inl h2))
  · exact Or.inr (Or.inr (Or.inr (Or.inl h2)))
  · exact Or.inr (Or.inr (Or.inr (Or.inr h2)))

theorem progOf_starts_lockAcq (op : COp) :
    ∃ tl, progOf op = MStep.lockAcq :: tl := by
  cases op <;> exact ⟨_, rfl⟩

theorem prog_after_acq {op : COp} {rest : List MStep}
    (h : (MStep.lockAcq :: rest) <:+ progOf op) :
    MStep.lockAcq :: rest = progOf op := by
  cases op with
  | cRegister t c => rcases suffix_three h with h | h | h | h <;> simp_all [progOf]
  | cRelease t => rcases suffix_four h with h | h | h | h | h <;> simp_all [progOf]
  | cResolve t => rcases suffix_three h with h | h | h | h <;> simp_all [progOf]

theorem prog_after_rel {op : COp} {rest : List MStep}
    (h : (MStep.lockRel :: rest) <:+ progOf op) : rest = [] := by
  cases op with
  | cRegister t c => rcases suffix_three h with h | h | h | h <;> simp_all [progOf]
  | cRelease t => rcases suffix_four h with h | h | h | h | h <;> simp_all [progOf]
  | cResolve t => rcases suffix_three h with h | h | h | h <;> simp_all [progOf]

theorem prog_after_ins {op : COp} {rest : List MStep} {t c : Nat}
    (h : (MStep.insertE t c :: rest) <:+ progOf op) :
    rest = [MStep.lockRel] := by
  cases op with
  | cRegister t2 c2 => rcases suffix_three h with h | h | h | h <;> simp_all [progOf]
  | cRelease t2 => rcases suffix_four h with h | h | h | h | h <;> simp_all [progOf]
  | cResolve t2 => rcases suffix_three h with h | h | h | h <;> simp_all [progOf]

theorem prog_after_inval {op : COp} {rest : List MStep} {t : Nat}
    (h : (MStep.invalidateE t :: rest) <:+ progOf op) :
    rest = [MStep.eraseE t, MStep.lockRel] := by
  cases op with
  | cRegister t2 c2 => rcases suffix_three h with h | h | h | h <;> simp_all [progOf]
  | cRelease t2 => rcases suffix_four h with h | h | h | h | h <;> simp_all [progOf]
  | cResolve t2 => rcases suffix_three h with h | h | h | h <;> simp_all [progOf]

theorem prog_after_erase {op : COp} {rest : List MStep} {t : Nat}
    (h : (MStep.eraseE t :: rest) <:+ progOf op) :
    rest = [MStep.lockRel] := by
  cases op with
  | cRegister t2 c2 => rcases suffix_three h with h | h | h | h <;> simp_all [progOf]
  | cRelease t2 => rcases suffix_four h with h | h | h | h | h <;> simp_all [progOf]
  | cResolve t2 => rcases suffix_three h with h | h | h | h <;> simp_all [progOf]

theorem prog_after_lookup {op : COp} {rest : List MStep} {t : Nat}
    (h : (MStep.lookupE t :: rest) <:+ progOf op) :
    rest = [MStep.lockRel] := by
  cases op with
  | cRegister t2 c2 => rcases suffix_three h with h | h | h | h <;> simp_all [progOf]
  | cRelease t2 => rcases suffix_four h with h | h | h | h | h <;> simp_all [progOf]
  | cResolve t2 => rcases suffix_three h with h | h | h | h <;> simp_all [progOf]

theorem cons_ne_progOf {op : COp} {rest : List MStep} {i : MStep}
    (h : i ≠ MStep.lockAcq) : i :: rest ≠ progOf op := by
  obtain ⟨tl, htl⟩ := progOf_starts_lockAcq op
  rw [htl]
  intro hcontra
  exact h (by injection hcontra)

theorem getElem?_set_of_get {α : Type} (l : List α) (i j : Nat) (a b : α)
    (hi : l[i]? = some b) :
    (l.set i a)[j]? = if i = j then some a else l[j]? := by
  by_cases hij : i = j
  · subst hij
    simp [List.getElem?_set_self', hi]
  · simp [List.getElem?_set_ne hij, hij]

theorem tail_suffix_of_cons_suffix {α : Type} {a : α} {l prog : List α}
    (h : a :: l <:+ prog) : l <:+ prog :=
  (List.suffix_cons a l).trans h

theorem threads_set_cases {l : List (COp × List MStep)} {i j : Nat}
    {a b p : COp × List MStep} (hi : l[i]? = some b)
    (hj : (l.set i a)[j]? = some p) :
    (i = j ∧ p = a) ∨ (i ≠ j ∧ l[j]? = some p) := by
  rw [getElem?_set_of_get l i j a b hi] at hj
  by_cases hij : i = j
  · rw [if_pos hij] at hj
    exact Or.inl ⟨hij, (Option.some.inj hj).symm⟩
  · rw [if_neg hij] at hj
    exact Or.inr ⟨hij, hj⟩

theorem cinv_step {s s2 : CSys} (hinv : CInv s) (hstep : CStep s s2) :
    CInv s2 := by
  obtain ⟨hsuf, hlock, hhalf, hobs⟩ := hinv
  cases hstep with
  | acq i op rest hi hl =>
      have hfull : MStep.lockAcq :: rest = progOf op :=
        prog_after_acq (hsuf i op _ hi)
      refine ⟨?_, ?_, ?_, ?_⟩
      · intro j op2 rest2 hj
        have hj' : (s.threads.set i (op, rest))[j]? = some (op2, rest2) := hj
        rcases threads_set_cases hi hj' with ⟨hij, hp⟩ | ⟨hij, hold⟩
        · obtain ⟨rfl, rfl⟩ : op2 = op ∧ rest2 = rest := by
            simpa [Prod.ext_iff] using hp
          exact hfull ▸ List.suffix_cons _ _
        · exact hsuf j op2 rest2 hold
      · intro j op2 rest2 hj hne hnil
        have hj' : (s.threads.set i (op, rest))[j]? = some (op2, rest2) := hj
        rcases threads_set_cases hi hj' with ⟨hij, hp⟩ | ⟨hij, hold⟩
        · show some i = some j
          rw [hij]
        · have hmid := hlock j op2 rest2 hold hne hnil
          rw [hl] at hmid
          simp at hmid
      · intro t st hmem hst
        have hmem' : (t, st) ∈ s.map := hmem
        obtain ⟨j, op2, hj⟩ := hhalf t st hmem' hst
        have hmid := hlock j op2 _ hj (cons_ne_progOf (by simp)) (by simp)
        rw [hl] at hmid
        simp at hmid
      · exact hobs
  | rel i op rest hi =>
      have hrest : rest = [] := prog_after_rel (hsuf i op _ hi)
      subst hrest
      have hmidi : s.lock = some i :=
        hlock i op _ hi (cons_ne_progOf (by simp)) (by simp)
      refine ⟨?_, ?_, ?_, ?_⟩
      · intro j op2 rest2 hj
        have hj' : (s.threads.set i (op, []))[j]? = some (op2, rest2) := hj
        rcases threads_set_cases hi hj' with ⟨hij, hp⟩ | ⟨hij, hold⟩
        · obtain ⟨rfl, rfl⟩ : op2 = op ∧ rest2 = [] := by
            simpa [Prod.ext_iff] using hp
          exact List.nil_suffix
        · exact hsuf j op2 rest2 hold
      · intro j op2 rest2 hj hne hnil
        have hj' : (s.threads.set i (op, []))[j]? = some (op2, rest2) := hj
        rcases threads_set_cases hi hj' with ⟨hij, hp⟩ | ⟨hij, hold⟩
        · obtain ⟨rfl, rfl⟩ : op2 = op ∧ rest2 = [] := by
            simpa [Prod.ext_iff] using hp
          exact absurd rfl hnil
        · have hmid := hlock j op2 rest2 hold hne hnil
          rw [hmidi] at hmid
          exact absurd (Option.some.inj hmid) hij
      · intro t st hmem hst
        have hmem' : (t, st) ∈ s.map := hmem
        obtain ⟨j, op2, hj⟩ := hhalf t st hmem' hst
        have hmid := hlock j op2 _ hj (cons_ne_progOf (by simp)) (by simp)
        rw [hmidi] at hmid
        have hij : i = j := Option.some.inj hmid
        subst hij
        rw [hi] at hj
        simp at hj
      · exact hobs
  | ins i op rest t c hi =>
      have hrest : rest = [MStep.lockRel] := prog_after_ins (hsuf i op _ hi)
      subst hrest
      have hmidi : s.lock = some i :=
        hlock i op _ hi (cons_ne_progOf (by simp)) (by simp)
      refine ⟨?_, ?_, ?_, ?_⟩
      · intro j op2 rest2 hj
        have hj' : (s.threads.set i (op, [MStep.lockRel]))[j]?
            = some (op2, rest2) := hj
        rcases threads_set_cases hi hj' with ⟨hij, hp⟩ | ⟨hij, hold⟩
        · obtain ⟨rfl, rfl⟩ : op2 = op ∧ rest2 = [MStep.lockRel] := by
            simpa [Prod.ext_iff] using hp
          exact tail_suffix_of_cons_suffix (hsuf i _ _ hi)
        · exact hsuf j op2 rest2 hold
      · intro j op2 rest2 hj hne hnil
        have hj' : (s.threads.set i (op, [MStep.lockRel]))[j]?
            = some (op2, rest2) := hj
        rcases threads_set_cases hi hj' with ⟨hij, hp⟩ | ⟨hij, hold⟩
        · show s.lock = some j
          rw [← hij]
          exact hmidi
        · exact hlock j op2 rest2 hold hne hnil
      · intro t0 st hmem hst
        have hmem' : (t0, st) ∈ mapInsert s.map t c := hmem
        rcases List.mem_cons.1 hmem' with hhead | htail
        · obtain ⟨rfl, rfl⟩ : t0 = t ∧ st = EntrySt.live c := by
            simpa [Prod.ext_iff] using hhead
          simp at hst
        · have hmem2 : (t0, st) ∈ s.map := (List.mem_filter.1 htail).1
          obtain ⟨j, op2, hj⟩ := hhalf t0 st hmem2 hst
          have hij : i ≠ j := by
            intro hcontra
            subst hcontra
            rw [hi] at hj
            simp at hj
          refine ⟨j, op2, ?_⟩
          show (s.threads.set i (op, [MStep.lockRel]))[j]? = _
          rw [getElem?_set_of_get s.threads i j _ _ hi, if_neg hij]
          exact hj
      · exact hobs
  | inval i op rest t hi =>
      have hrest : rest = [MStep.eraseE t, MStep.lockRel] :=
        prog_after_inval (hsuf i op _ hi)
      subst hrest
      have hmidi : s.lock = some i :=
        hlock i op _ hi (cons_ne_progOf (by simp)) (by simp)
      refine ⟨?_, ?_, ?_, ?_⟩
      · intro j op2 rest2 hj
        have hj' : (s.threads.set i (op, [MStep.eraseE t, MStep.lockRel]))[j]?
            = some (op2, rest2) := hj
        rcases threads_set_cases hi hj' with ⟨hij, hp⟩ | ⟨hij, hold⟩
        · obtain ⟨rfl, rfl⟩ :
              op2 = op ∧ rest2 = [MStep.eraseE t, MStep.lockRel] := by
            simpa [Prod.ext_iff] using hp
          exact tail_suffix_of_cons_suffix (hsuf i _ _ hi)
        · exact hsuf j op2 rest2 hold
      · intro j op2 rest2 hj hne hnil
        have hj' : (s.threads.set i (op, [MStep.eraseE t, MStep.lockRel]))[j]?
            = some (op2, rest2) := hj
        rcases threads_set_cases hi hj' with ⟨hij, hp⟩ | ⟨hij, hold⟩
        · show s.lock = some j
          rw [← hij]
          exact hmidi
        · exact hlock j op2 rest2 hold hne hnil
      · intro t0 st hmem hst
        have hmem' : (t0, st) ∈ mapInvalidate s.map t := hmem
        obtain ⟨p, hp, hfp⟩ := List.mem_map.1 hmem'
        by_cases hpt : p.1 = t
        · rw [if_pos hpt] at hfp
          obtain ⟨h1, h2⟩ : p.1 = t0 ∧ EntrySt.invalidated = st := by
            simpa [Prod.ext_iff] using hfp
          have ht0 : t0 = t := by rw [← h1, hpt]
          refine ⟨i, op, ?_⟩
          rw [ht0]
          show (s.threads.set i (op, [MStep.eraseE t, MStep.lockRel]))[i]? = _
          rw [getElem?_set_of_get s.threads i i _ _ hi, if_pos rfl]
        · rw [if_neg hpt] at hfp
          rw [hfp] at hp
          obtain ⟨j, op2, hj⟩ := hhalf t0 st hp hst
          have hij : i ≠ j := by
            intro hcontra
            subst hcontra
            rw [hi] at hj
            simp at hj
          refine ⟨j, op2, ?_⟩
          show (s.threads.set i (op, [MStep.eraseE t, MStep.lockRel]))[j]? = _
          rw [getElem?_set_of_get s.threads i j _ _ hi, if_neg hij]
          exact hj
      · exact hobs
  | erase i op rest t hi =>
      have hrest : rest = [MStep.lockRel] := prog_after_erase (hsuf i op _ hi)
      subst hrest
      refine ⟨?_, ?_, ?_, ?_⟩
      · intro j op2 rest2 hj
        have hj' : (s.threads.set i (op, [MStep.lockRel]))[j]?
            = some (op2, rest2) := hj
        rcases threads_set_cases hi hj' with ⟨hij, hp⟩ | ⟨hij, hold⟩
        · obtain ⟨rfl, rfl⟩ : op2 = op ∧ rest2 = [MStep.lockRel] := by
            simpa [Prod.ext_iff] using hp
          exact tail_suffix_of_cons_suffix (hsuf i _ _ hi)
        · exact hsuf j op2 rest2 hold
      · intro j op2 rest2 hj hne hnil
        have hj' : (s.threads.set i (op, [MStep.lockRel]))[j]?
            = some (op2, rest2) := hj
        rcases threads_set_cases hi hj' with ⟨hij, hp⟩ | ⟨hij, hold⟩
        · show s.lock = some j
          rw [← hij]
          exact hlock i op _ hi (cons_ne_progOf (by simp)) (by simp)
        · exact hlock j op2 rest2 hold hne hnil
      · intro t0 st hmem hst
        have hmem' : (t0, st) ∈ mapErase s.map t := hmem
        have hmem2 : (t0, st) ∈ s.map := (List.mem_filter.1 hmem').1
        have ht0t : t0 ≠ t := by
          have := (List.mem_filter.1 hmem').2
          simpa using this
        obtain ⟨j, op2, hj⟩ := hhalf t0 st hmem2 hst
        have hij : i ≠ j := by
          intro hcontra
          subst hcontra
          rw [hi] at hj
          simp at hj
          exact ht0t hj.2.symm
        refine ⟨j, op2, ?_⟩
        show (s.threads.set i (op, [MStep.lockRel]))[j]? = _
        rw [getElem?_set_of_get s.threads i j _ _ hi, if_neg hij]
        exact hj
      · exact hobs
  | lookup i op rest t hi =>
      have hrest : rest = [MStep.lockRel] :=
        prog_after_lookup (hsuf i op _ hi)
      subst hrest
      have hmidi : s.lock = some i :=
        hlock i op _ hi (cons_ne_progOf (by simp)) (by simp)
      refine ⟨?_, ?_, ?_, ?_⟩
      · intro j op2 rest2 hj
        have hj' : (s.threads.set i (op, [MStep.lockRel]))[j]?
            = some (op2, rest2) := hj
        rcases threads_set_cases hi hj' with ⟨hij, hp⟩ | ⟨hij, hold⟩
        · obtain ⟨rfl, rfl⟩ : op2 = op ∧ rest2 = [MStep.lockRel] := by
            simpa [Prod.ext_iff] using hp
          exact tail_suffix_of_cons_suffix (hsuf i _ _ hi)
        · exact hsuf j op2 rest2 hold
      · intro j op2 rest2 hj hne hnil
        have hj' : (s.threads.set i (op, [MStep.lockRel]))[j]?
            = some (op2, rest2) := hj
        rcases threads_set_cases hi hj' with ⟨hij, hp⟩ | ⟨hij, hold⟩
        · show s.lock = some j
          rw [← hij]
          exact hmidi
        · exact hlock j op2 rest2 hold hne hnil
      · intro t0 st hmem hst
        have hmem' : (t0, st) ∈ s.map := hmem
        obtain ⟨j, op2, hj⟩ := hhalf t0 st hmem' hst
        have hij : i ≠ j := by
          intro hcontra
          subst hcontra
          rw [hi] at hj
          simp at hj
        refine ⟨j, op2, ?_⟩
        show (s.threads.set i (op, [MStep.lockRel]))[j]? = _
        rw [getElem?_set_of_get s.threads i j _ _ hi, if_neg hij]
        exact hj
      · intro p hp
        have hp' : p ∈ (t, mapLookup s.map t) :: s.observed := hp
        rcases List.mem_cons.1 hp' with rfl | htail
        · show mapLookup s.map t ≠ some EntrySt.invalidated
          intro hv
          unfold mapLookup at hv
          obtain ⟨q, hq, hq2⟩ := Option.map_eq_some'.1 hv
          have hqmem : q ∈ s.map := List.mem_of_find?_eq_some hq
          have hqmem' : (q.1, q.2) ∈ s.map := by
            rw [Prod.mk.eta]
            exact hqmem
          obtain ⟨j, op2, hj⟩ := hhalf q.1 q.2 hqmem' hq2
          have hmidj : s.lock = some j :=
            hlock j op2 _ hj (cons_ne_progOf (by simp)) (by simp)
          rw [hmidi] at hmidj
          have hij : i = j := Option.some.inj hmidj
          subst hij
          rw [hi] at hj
          simp at hj
        · exact hobs p htail

theorem cinv_init {s : CSys} (h : CInitial s) : CInv s := by
  obtain ⟨hl, hob, hmap, hth⟩ := h
  refine ⟨?_, ?_, ?_, ?_⟩
  · intro i op rest hi
    have hrest : rest = progOf op := hth _ (List.getElem?_mem hi)
    rw [hrest]
  · intro i op rest hi hne hnil
    exact absurd (hth _ (List.getElem?_mem hi)) hne
  · intro t st hmem hst
    exact absurd hst (hmap _ hmem)
  · intro p hp
    rw [hob] at hp
    exact absurd hp (List.not_mem_nil p)

theorem cinv_reach {s0 s : CSys} (h0 : CInv s0)
    (h : Relation.ReflTransGen CStep s0 s) : CInv s := by
  induction h with
  | refl => exact h0
  | tail _ hstep ih => exact cinv_step ih hstep

/-! ## The claims -/

/-- **C1**: for every hook kind with a success/failure contract
(authorizer, busy handler, progress handler, scalar/aggregate function),
an abnormal failure of the managed closure is caught at the trampoline
boundary and converted into the hook's native failure code — for
user-defined functions, the `sqlite3_result_error` path — and for the
void-returning notification hooks the failure is swallowed; no
abnormal-termination signal crosses the foreign-call boundary (every
trampoline returns an ordinary native value). -/
theorem abnormal_failure_converted_at_boundary
    (authC : Ptr → Int → Outcome Int) (busyC : Ptr → Int → Outcome Int)
    (progC : Ptr → Outcome Int)
    (funC : Ptr → Ptr → Nat → List SqliteValue → Outcome SqliteValue)
    (stepC : Ptr → Nat → List SqliteValue → Outcome Unit)
    (finalC : Ptr → Outcome SqliteValue)
    (traceC : Ptr → String → Outcome Unit)
    (updC : Ptr → Int → String → String → Int → Outcome Unit)
    (udp : Ptr) (action count : Int) (ctx : SqliteContext) (argc : Nat)
    (argv : List SqliteValue) (sql dbName tbl : String) (rowID : Int)
    (msg : String)
    (hA : authC udp action = .abnormal msg)
    (hB : busyC udp count = .abnormal msg)
    (hP : progC udp = .abnormal msg)
    (hF : funC (sqlite3_user_data ctx) (sqlite3_get_auxdata ctx 0) argc argv
      = .abnormal msg)
    (hS : stepC (sqlite3_user_data ctx) argc argv = .abnormal msg)
    (hFin : finalC (sqlite3_user_data ctx) = .abnormal msg)
    (hT : traceC udp sql = .abnormal msg)
    (hU : updC udp action dbName tbl rowID = .abnormal msg) :
    goXAuth authC udp action = SQLITE_DENY ∧
    goXBusy busyC udp count = 0 ∧
    goXProgress progC udp = 1 ∧
    cXFunc funC ctx argc argv = sqlite3_result_error ctx msg ∧
    cXStep stepC ctx argc argv = sqlite3_result_error ctx msg ∧
    cXFinal finalC ctx = sqlite3_result_error ctx msg ∧
    goXTrace traceC udp sql = () ∧
    goXUpdateHook updC udp action dbName tbl rowID = () := by
  refine ⟨?_, ?_, ?_, ?_, ?_, ?_, ?_, ?_⟩
  · simp [goXAuth, hA]
  · simp [goXBusy, hB]
  · simp [goXProgress, hP]
  · simp [cXFunc, goXFunc, hF]
  · simp [cXStep, goXStep, hS]
  · simp [cXFinal, goXFinal, hFin]
  · simp [goXTrace, hT]
  · simp [goXUpdateHook, hU]

theorem abnormal_failure_converted_at_boundary_witness :
    goXAuth (fun _ _ => .abnormal "boom") 1 9 = SQLITE_DENY ∧
    goXBusy (fun _ _ => .abnormal "boom") 1 3 = 0 ∧
    goXProgress (fun _ => .abnormal "boom") 1 = 1 ∧
    cXFunc (fun _ _ _ _ => .abnormal "boom") ⟨1, fun _ => 2, none, none⟩ 2
      [SqliteValue.intVal 4, SqliteValue.intVal 5]
      = sqlite3_result_error ⟨1, fun _ => 2, none, none⟩ "boom" ∧
    cXStep (fun _ _ _ => .abnormal "boom") ⟨1, fun _ => 2, none, none⟩ 2
      [SqliteValue.intVal 4, SqliteValue.intVal 5]
      = sqlite3_result_error ⟨1, fun _ => 2, none, none⟩ "boom" ∧
    cXFinal (fun _ => .abnormal "boom") ⟨1, fun _ => 2, none, none⟩
      = sqlite3_result_error ⟨1, fun _ => 2, none, none⟩ "boom" ∧
    goXTrace (fun _ _ => .abnormal "boom") 1 "S" = () ∧
    goXUpdateHook (fun _ _ _ _ _ => .abnormal "boom") 1 18 "d" "t" 7 = () :=
  abnormal_failure_converted_at_boundary
    (fun _ _ => .abnormal "boom") (fun _ _ => .abnormal "boom")
    (fun _ => .abnormal "boom") (fun _ _ _ _ => .abnormal "boom")
    (fun _ _ _ => .abnormal "boom") (fun _ => .abnormal "boom")
    (fun _ _ => .abnormal "boom") (fun _ _ _ _ _ => .abnormal "boom")
    1 9 3 ⟨1, fun _ => 2, none, none⟩ 2
    [SqliteValue.intVal 4, SqliteValue.intVal 5] "S" "d" "t" 7 "boom"
    rfl rfl rfl rfl rfl rfl rfl rfl

/-- **C2**: when a registered scalar function is invoked with two integer
arguments, the trampoline `cXFunc` passes the argument count and both
argument value handles to the managed closure unchanged, and the
closure's numeric result is written back through the engine-provided
value setter unchanged. -/
theorem scalar_two_int_args_passed_unchanged
    (closure : Ptr → Ptr → Nat → List SqliteValue → Outcome SqliteValue)
    (ctx : SqliteContext) (a b r : Int)
    (h : closure (sqlite3_user_data ctx) (sqlite3_get_auxdata ctx 0) 2
      [SqliteValue.intVal a, SqliteValue.intVal b]
      = Outcome.ok (SqliteValue.intVal r)) :
    cXFunc closure ctx 2 [SqliteValue.intVal a, SqliteValue.intVal b]
      = sqlite3_result_value ctx (SqliteValue.intVal r) := by
  unfold cXFunc goXFunc
  rw [h]

theorem scalar_two_int_args_passed_unchanged_witness :
    cXFunc
      (fun _ _ _ args =>
        match args with
        | [SqliteValue.intVal x, SqliteValue.intVal y] =>
            Outcome.ok (SqliteValue.intVal (x + y))
        | _ => Outcome.ok SqliteValue.nullVal)
      ⟨1, fun _ => 2, none, none⟩ 2
      [SqliteValue.intVal 4, SqliteValue.intVal 5]
      = sqlite3_result_value ⟨1, fun _ => 2, none, none⟩
          (SqliteValue.intVal 9) :=
  scalar_two_int_args_passed_unchanged _ ⟨1, fun _ => 2, none, none⟩ 4 5 9 rfl

/-- **C3**: for every hook kind registered through the glue layer, the
opaque user-data token given at registration is delivered back to the
trampoline unmodified when the engine fires the hook (the engine only
stores it), and the modelled trampoline body hands exactly that token to
the managed closure. -/
theorem udp_delivered_unmodified (k : GoHookKind) (db : Sqlite3) (udp : Ptr)
    (closure : Ptr → Int) :
    deliveredUdp k (registerHook k db udp) = some udp ∧
    goXCommitHook closure udp = closure udp := by
  constructor
  · cases k <;>
      simp [registerHook, deliveredUdp, hookSlot, goSqlite3CommitHook,
        goSqlite3RollbackHook, goSqlite3UpdateHook, goSqlite3Trace,
        goSqlite3Profile, goSqlite3SetAuthorizer, goSqlite3BusyHandler,
        goSqlite3ProgressHandler, sqlite3_commit_hook,
        sqlite3_rollback_hook, sqlite3_update_hook, sqlite3_trace,
        sqlite3_profile, sqlite3_set_authorizer, sqlite3_busy_handler,
        sqlite3_progress_handler]
  · rfl

/-- **C4**: for either user-defined-function kind, registering a second
closure under the same function name replaces the prior registration —
the engine keeps a single slot per name — and fires the prior
registration's destructor exactly once with its `pApp`, while a first
registration releases nothing. -/
theorem second_registration_releases_exactly_one
    (agg1 agg2 : Bool) (db : FuncDb) (name : String)
    (nArg eTextRep : Int) (p1 p2 : Ptr)
    (hopen : db.isOpen = true) (hnone : db.funcs name = none) :
    (createGoFunction agg1 db name nArg eTextRep p1).2 = SQLITE_OK ∧
    (createGoFunction agg1 db name nArg eTextRep p1).1.destroyLog
      = db.destroyLog ∧
    (createGoFunction agg2 (createGoFunction agg1 db name nArg eTextRep p1).1
      name nArg eTextRep p2).2 = SQLITE_OK ∧
    (createGoFunction agg2 (createGoFunction agg1 db name nArg eTextRep p1).1
      name nArg eTextRep p2).1.destroyLog = p1 :: db.destroyLog ∧
    ((createGoFunction agg2 (createGoFunction agg1 db name nArg eTextRep p1).1
      name nArg eTextRep p2).1.funcs name).map FuncSlot.pApp = some p2 := by
  cases agg1 <;> cases agg2 <;>
    simp [createGoFunction, goSqlite3CreateScalarFunction,
      goSqlite3CreateAggregateFunction, sqlite3_create_function_v2,
      hopen, hnone]

theorem second_registration_releases_exactly_one_witness :
    (createGoFunction false ⟨true, fun _ => none, []⟩ "f" 1 27 1).2
      = SQLITE_OK ∧
    (createGoFunction false ⟨true, fun _ => none, []⟩ "f" 1 27 1).1.destroyLog
      = ([] : List Ptr) ∧
    (createGoFunction true
      (createGoFunction false ⟨true, fun _ => none, []⟩ "f" 1 27 1).1
      "f" 1 27 2).2 = SQLITE_OK ∧
    (createGoFunction true
      (createGoFunction false ⟨true, fun _ => none, []⟩ "f" 1 27 1).1
      "f" 1 27 2).1.destroyLog = [(1 : Ptr)] ∧
    ((createGoFunction true
      (createGoFunction false ⟨true, fun _ => none, []⟩ "f" 1 27 1).1
      "f" 1 27 2).1.funcs "f").map FuncSlot.pApp = some 2 :=
  second_registration_releases_exactly_one false true
    ⟨true, fun _ => none, []⟩ "f" 1 27 1 2 rfl rfl

/-- **C5**: a live registration's closure is released exactly once and
only on the destructor-callback path: closing a connection with exactly
one live registration logs exactly one release of its token (and removes
the registration), while a registration into a free (connection, kind)
slot releases nothing — the registry never releases proactively. -/
theorem release_exactly_once_on_destructor_path
    (r : Registry) (conn : Nat) (e0 : RegEntry) (openConns : List Nat)
    (conn2 : Nat) (kind : ExtPointKind) (c : Nat)
    (hone : r.entries.filter (fun e => e.conn == conn) = [e0])
    (hfresh : e0.token ∉ r.releaseLog)
    (hnoprior : r.entries.filter (fun e => e.isSlot conn2 kind) = []) :
    (r.closeConn conn).releaseLog.count e0.token = 1 ∧
    ((r.closeConn conn).entries.all (fun e => e.conn != conn)) = true ∧
    (Registry.runOp openConns r (RegOp.doRegister conn2 kind c)).releaseLog
      = r.releaseLog := by
  refine ⟨?_, ?_, ?_⟩
  · show (((r.entries.filter (fun e => e.conn == conn)).map (·.token))
      ++ r.releaseLog).count e0.token = 1
    rw [hone]
    rw [List.count_append]
    rw [List.count_eq_zero.2 hfresh]
    simp
  · show ((r.entries.filter (fun e => e.conn != conn)).all
      (fun e => e.conn != conn)) = true
    rw [List.all_eq_true]
    intro e he
    exact (List.mem_filter.1 he).2
  · simp only [Registry.runOp]
    unfold Registry.register
    by_cases hc : conn2 ∈ openConns
    · rw [if_pos hc]
      show (r.entries.filter (fun e => e.isSlot conn2 kind)).map (·.token)
        ++ r.releaseLog = r.releaseLog
      rw [hnoprior]
      simp
    · rw [if_neg hc]

theorem release_exactly_once_on_destructor_path_witness :
    ((⟨1, [⟨0, 5, ExtPointKind.updateHookK, 9⟩], []⟩ :
      Registry).closeConn 5).releaseLog.count 0 = 1 ∧
    (((⟨1, [⟨0, 5, ExtPointKind.updateHookK, 9⟩], []⟩ :
      Registry).closeConn 5).entries.all (fun e => e.conn != 5)) = true ∧
    (Registry.runOp [5] ⟨1, [⟨0, 5, ExtPointKind.updateHookK, 9⟩], []⟩
      (RegOp.doRegister 5 ExtPointKind.commitHookK 3)).releaseLog
      = ([] : List Nat) :=
  release_exactly_once_on_destructor_path
    ⟨1, [⟨0, 5, ExtPointKind.updateHookK, 9⟩], []⟩ 5
    ⟨0, 5, ExtPointKind.updateHookK, 9⟩ [5] 5 ExtPointKind.commitHookK 3
    (by decide) (by decide) (by decide)

/-- **C6**: over any sequence of register / release / close operations
on a well-formed registry, a token whose release has completed is never
resolved again: `resolve` on it fails with `DanglingTokenError`, because
freshly minted tokens are never reused. -/
theorem resolve_after_release_fails (openConns : List Nat)
    (ops : List RegOp) (r : Registry) (t : Nat)
    (hwf : r.Wf) (h : t ∈ r.releaseLog) :
    (Registry.run openConns r ops).resolve t = .error .danglingToken := by
  induction ops generalizing r with
  | nil => exact registry_resolve_of_released r t hwf h
  | cons op ops ih =>
      exact ih (r.runOp openConns op)
        (registry_wf_runOp openConns r op hwf)
        (registry_releaseLog_mono openConns r op t h)

theorem resolve_after_release_fails_witness :
    (Registry.run [7] ⟨1, [], [0]⟩
      [RegOp.doRegister 7 ExtPointKind.updateHookK 3,
       RegOp.doRelease 1, RegOp.doClose 7]).resolve 0
      = .error RegError.danglingToken :=
  resolve_after_release_fails [7]
    [RegOp.doRegister 7 ExtPointKind.updateHookK 3,
     RegOp.doRelease 1, RegOp.doClose 7]
    ⟨1, [], [0]⟩ 0 (by decide) (by decide)

/-- **C7**: `register(connection, kind, closure)` fails with
`AlreadyClosedError` exactly when the connection is not open; otherwise
it returns a fresh token under which the closure resolves, makes the new
token the only live registration for that (connection, kind) slot, and
releases every prior closure of that slot. -/
theorem register_contract (r : Registry) (openConns : List Nat)
    (conn : Nat) (kind : ExtPointKind) (c : Nat) :
    (r.register openConns conn kind c = .error .alreadyClosed
      ↔ conn ∉ openConns) ∧
    (∀ r2 tok, r.register openConns conn kind c = .ok (r2, tok) →
      tok = r.nextToken ∧
      r2.resolve tok = .ok c ∧
      (∀ e ∈ r2.entries, e.isSlot conn kind = true → e.token = tok) ∧
      r2.releaseLog
        = (r.entries.filter (fun e => e.isSlot conn kind)).map (·.token)
          ++ r.releaseLog) := by
  constructor
  · constructor
    · intro h hc
      unfold Registry.register at h
      rw [if_pos hc] at h
      simp at h
    · intro h
      unfold Registry.register
      rw [if_neg h]
  · intro r2 tok heq
    unfold Registry.register at heq
    by_cases hc : conn ∈ openConns
    · rw [if_pos hc] at heq
      have hpair := Except.ok.inj heq
      obtain ⟨rfl, rfl⟩ : _ ∧ _ := Prod.mk.injEq .. ▸ hpair
      refine ⟨rfl, ?_, ?_, rfl⟩
      · simp [Registry.resolve]
      · intro e he hslot
        rcases List.mem_cons.1 he with rfl | he'
        · rfl
        · have := (List.mem_filter.1 he').2
          simp [hslot] at this
    · rw [if_neg hc] at heq
      simp at heq

theorem register_contract_witness :
    ((Registry.init.register [4] 4 ExtPointKind.commitHookK 9
      = .error RegError.alreadyClosed) ↔ 4 ∉ [4]) ∧
    (∀ r2 tok,
      Registry.init.register [4] 4 ExtPointKind.commitHookK 9
        = .ok (r2, tok) →
      tok = Registry.init.nextToken ∧
      r2.resolve tok = .ok 9 ∧
      (∀ e ∈ r2.entries,
        e.isSlot 4 ExtPointKind.commitHookK = true → e.token = tok) ∧
      r2.releaseLog
        = (Registry.init.entries.filter
            (fun e => e.isSlot 4 ExtPointKind.commitHookK)).map (·.token)
          ++ Registry.init.releaseLog) :=
  register_contract Registry.init [4] 4 ExtPointKind.commitHookK 9

/-- **C8**: in the lock-protected interleaving model of the registry,
from any initial state and along any interleaving of concurrent
register / release / resolve operations, a lookup never observes a
partially-released entry: the short-held mutual-exclusion lock
serializes register and release against each other and against
resolve. -/
theorem lookup_never_sees_invalidated (s0 s : CSys) (h0 : CInitial s0)
    (hr : Relation.ReflTransGen CStep s0 s) :
    ∀ p ∈ s.observed, p.2 ≠ some EntrySt.invalidated :=
  (cinv_reach (cinv_init h0) hr).obsClean

theorem lookup_never_sees_invalidated_witness :
    ((5 : Nat), some (EntrySt.live 7)).2 ≠ some EntrySt.invalidated := by
  have h1 : CStep
      ⟨none, [(5, EntrySt.live 7)],
        [(COp.cResolve 5,
          [MStep.lockAcq, MStep.lookupE 5, MStep.lockRel])], []⟩
      ⟨some 0, [(5, EntrySt.live 7)],
        [(COp.cResolve 5, [MStep.lookupE 5, MStep.lockRel])], []⟩ :=
    CStep.acq _ 0 (COp.cResolve 5) [MStep.lookupE 5, MStep.lockRel] rfl rfl
  have h2 : CStep
      ⟨some 0, [(5, EntrySt.live 7)],
        [(COp.cResolve 5, [MStep.lookupE 5, MStep.lockRel])], []⟩
      ⟨some 0, [(5, EntrySt.live 7)],
        [(COp.cResolve 5, [MStep.lockRel])],
        [(5, some (EntrySt.live 7))]⟩ :=
    CStep.lookup _ 0 (COp.cResolve 5) [MStep.lockRel] 5 rfl
  have h3 : CStep
      ⟨some 0, [(5, EntrySt.live 7)],
        [(COp.cResolve 5, [MStep.lockRel])],
        [(5, some (EntrySt.live 7))]⟩
      ⟨none, [(5, EntrySt.live 7)],
        [(COp.cResolve 5, [])], [(5, some (EntrySt.live 7))]⟩ :=
    CStep.rel _ 0 (COp.cResolve 5) [] rfl
  exact lookup_never_sees_invalidated _ _ (by decide)
    (Relation.ReflTransGen.head h1
      (Relation.ReflTransGen.head h2
        (Relation.ReflTransGen.head h3 Relation.ReflTransGen.refl)))
    ((5 : Nat), some (EntrySt.live 7)) (by simp)

/-- **C9**: `goSqlite3ConfigLog` with a null user-data token unregisters
the process-wide log sink — both the callback and its user data are set
to null — whereas a non-null token registers the `goXLog` trampoline
with that token; in both cases the engine's configuration return code is
what the caller receives. -/
theorem configLog_contract (g : GlobalConfig) (udp : Ptr)
    (hinit : g.initialized = false) :
    ((goSqlite3ConfigLog g udp).2 =
      (if udp ≠ nullPtr then (sqlite3_config_log g .xLog udp).2
       else (sqlite3_config_log g .noCb nullPtr).2)) ∧
    (udp = nullPtr →
      (goSqlite3ConfigLog g udp).1.logCb = .noCb ∧
      (goSqlite3ConfigLog g udp).1.logUdp = nullPtr) ∧
    (udp ≠ nullPtr →
      (goSqlite3ConfigLog g udp).1.logCb = .xLog ∧
      (goSqlite3ConfigLog g udp).1.logUdp = udp) := by
  by_cases h : udp = nullPtr <;>
    simp [goSqlite3ConfigLog, sqlite3_config_log, h, hinit]

theorem configLog_contract_witness :
    ((goSqlite3ConfigLog ⟨NativeCallback.xLog, 9, false⟩ 4).2 =
      (if (4 : Ptr) ≠ nullPtr
       then (sqlite3_config_log ⟨NativeCallback.xLog, 9, false⟩ .xLog 4).2
       else (sqlite3_config_log ⟨NativeCallback.xLog, 9, false⟩
         .noCb nullPtr).2)) ∧
    ((4 : Ptr) = nullPtr →
      (goSqlite3ConfigLog ⟨NativeCallback.xLog, 9, false⟩ 4).1.logCb
        = .noCb ∧
      (goSqlite3ConfigLog ⟨NativeCallback.xLog, 9, false⟩ 4).1.logUdp
        = nullPtr) ∧
    ((4 : Ptr) ≠ nullPtr →
      (goSqlite3ConfigLog ⟨NativeCallback.xLog, 9, false⟩ 4).1.logCb
        = .xLog ∧
      (goSqlite3ConfigLog ⟨NativeCallback.xLog, 9, false⟩ 4).1.logUdp
        = 4) :=
  configLog_contract ⟨NativeCallback.xLog, 9, false⟩ 4 rfl

/-- **C10**: the commit-, rollback- and update-hook wrappers return the
previous registration's user-data token to the caller, while the trace
and profile wrappers return `void` and discard it — their result does
not depend on the prior registration at all, so the caller cannot
recover the replaced token from the return value. -/
theorem hook_registration_return_values (db : Sqlite3) (udp : Ptr)
    (sA sB : HookSlot) :
    (goSqlite3CommitHook db udp).2 = db.commitHook.udp ∧
    (goSqlite3RollbackHook db udp).2 = db.rollbackHook.udp ∧
    (goSqlite3UpdateHook db udp).2 = db.updateHook.udp ∧
    goSqlite3Trace { db with traceHook := sA } udp
      = goSqlite3Trace { db with traceHook := sB } udp ∧
    goSqlite3Profile { db with profileHook := sA } udp
      = goSqlite3Profile { db with profileHook := sB } udp := by
  refine ⟨rfl, rfl, rfl, ?_, ?_⟩ <;>
    simp [goSqlite3Trace, goSqlite3Profile, sqlite3_trace, sqlite3_profile]
